import Mathlib

/-!
Shallow embedding of `src/app.py` (a scheduled news pipeline: fetch ESPN
summaries, scrape bodies, rewrite via Gemini, post to a Facebook page,
with a duplicate-history file and an at-most-5-posts-per-run cap).

External effects (environment variables, the history file, HTTP fetches,
page scraping, the Gemini call chain, the Facebook call chain) are passed
in as explicit oracle parameters bundled in `World`.  All state the run
mutates, plus an observation trace, is carried in `RunState`.  The Python
functions keep their source names.  Printing/logging is not modeled.
-/

namespace App

/-- PyError models an uncaught Python exception escaping a function.
The only uncaught exception path in the embedded code is the
`soup.find(<body tag>).find_all(<p tag>)` call in `get_article_content`
when the document has no body element (`NoneType` attribute access). -/
inductive PyError
  | attributeError
  deriving DecidableEq, Repr

/-- Python `str(x)` applied to the value of `article_summary.get(<id key>)`:
a missing key gives `None`, and `str(None)` is the string `None`. -/
def pyStr : Option String → String
  | none => "None"
  | some s => s

/-- Python truthiness test `not v` for an optional string: `None` and the
empty string are falsy. -/
def strFalsy : Option String → Bool
  | none => true
  | some s => s = ""

/-- Python `str.strip()` on a line: drop leading and trailing whitespace.
Executable model over the character list. -/
def pyStrip (s : String) : String :=
  String.mk (((s.data.dropWhile Char.isWhitespace).reverse.dropWhile Char.isWhitespace).reverse)

/-- Embeds `load_posted_ids` of src/app.py: read the lines of the history
file, strip whitespace, and drop empty lines.  Python builds a set; only
membership is ever consulted, so a list with list membership is an
equivalent embedding (the file is modeled as its list of lines, an absent
file as the empty list). -/
def load_posted_ids (file : List String) : List String :=
  (file.map pyStrip).filter (fun l => l ≠ "")

/-- Embeds `save_posted_id` of src/app.py: append one id line to the
history file. -/
def save_posted_id (file : List String) (article_id : String) : List String :=
  file ++ [article_id]

/-- Raw article summary as consumed by the code.  Each field models the
corresponding Python `dict.get` access (absent key = `none`):
`id`, `headline`, `published` (default empty string at the sort),
`typ` models the `type` key, `link` models the flattened
`links -> web -> href` chain, `images` the list of image `url` values,
and `source` / `league` the tags written by `get_espn_news`. -/
structure ArticleSummary where
  id : Option String
  headline : Option String
  published : Option String
  typ : Option String
  link : Option String
  images : List (Option String)
  source : Option String
  league : Option String
  deriving DecidableEq, Repr

/-- Sort key used at the sort call in `run_full_job`:
`x.get(<published key>, <empty string>)`. -/
def publishedKey (a : ArticleSummary) : String :=
  (a.published).getD ""

/-- Lexicographic strictly-less comparison of character lists by code
point, the comparison Python uses on strings. -/
def listStrLt : List Char → List Char → Bool
  | _, [] => false
  | [], _ :: _ => true
  | a :: as, b :: bs =>
    if a.toNat < b.toNat then true
    else if b.toNat < a.toNat then false
    else listStrLt as bs

/-- Python string comparison `a < b`: lexicographic on code points. -/
def pyStrLt (a b : String) : Bool :=
  listStrLt a.data b.data

/-- Insertion step of the stable descending sort: `x` (an earlier input
element) passes over exactly the elements with a strictly larger key and
is placed before the first element whose key is less than or equal to its
own, so equal keys keep their original relative order. -/
def insertDesc (key : ArticleSummary → String) (x : ArticleSummary) :
    List ArticleSummary → List ArticleSummary
  | [] => [x]
  | y :: ys => if pyStrLt (key x) (key y) then y :: insertDesc key x ys else x :: y :: ys

/-- Embeds the Python call `sorted(articles, key=..., reverse=True)`:
a stable sort placing larger keys first.  Python guarantees stability and
`reverse=True` does not reorder equal elements; insertion sort with
`insertDesc` realizes exactly that specification. -/
def pySortDesc (key : ArticleSummary → String) : List ArticleSummary → List ArticleSummary
  | [] => []
  | x :: xs => insertDesc key x (pySortDesc key xs)

/-- The filter-then-sort pipeline of `run_full_job` step 3: drop summaries
whose `type` is `Media`, then sort by `published` descending. -/
def candidateOrder (raw_articles : List ArticleSummary) : List ArticleSummary :=
  pySortDesc publishedKey (raw_articles.filter (fun a => a.typ ≠ some "Media"))

/-- The league table of `get_espn_news` in its Python insertion order. -/
def leagues : List (String × String) :=
  [("eng.1", "Premier League"), ("esp.1", "La Liga"),
   ("ger.1", "Bundesliga"), ("ita.1", "Serie A")]

/-- The per-article tagging in `get_espn_news`: overwrite the `source`
and `league` keys. -/
def tagArticle (league_name : String) (a : ArticleSummary) : ArticleSummary :=
  ⟨a.id, a.headline, a.published, a.typ, a.link, a.images, some "ESPN", some league_name⟩

/-- Embeds `get_espn_news` of src/app.py: iterate the league table, fetch
each feed (the oracle returns `.error` for a `RequestException`, which the
code catches with `continue`), tag each returned summary, and accumulate.
A failing feed contributes nothing; later feeds are still fetched. -/
def get_espn_news (fetch : String → Except Unit (List ArticleSummary)) : List ArticleSummary :=
  leagues.foldl
    (fun all_articles p =>
      match fetch p.1 with
      | .ok api_articles => all_articles ++ api_articles.map (tagArticle p.2)
      | .error _ => all_articles)
    []

/-- Paragraph container as seen by the scraper: the text contents of its
`p` descendants (each already passed through `get_text()`). -/
structure HtmlElement where
  ps : List String
  deriving DecidableEq, Repr

/-- A fetched page as consulted by `get_article_content`: `selectOne`
models `soup.select_one` for a CSS selector, `body` models
`soup.find(<body tag>)`, which with the html.parser backend is `None`
for documents without a body element. -/
structure HtmlDoc where
  selectOne : String → Option HtmlElement
  body : Option HtmlElement

/-- Result of the HTTP fetch inside `get_article_content`:
`requestError` covers any `requests.exceptions.RequestException`
(including a failing `raise_for_status`), which the code catches. -/
inductive ScrapeResult
  | requestError
  | page (doc : HtmlDoc)

/-- The selector list tried in order by `get_article_content`. -/
def content_selectors : List String :=
  ["div.article-body", "div.story-body", "div.article__body", "article"]

/-- The paragraph joining in `get_article_content`: strip each paragraph,
drop empties, join with blank lines. -/
def joinedText (ps : List String) : String :=
  String.intercalate "\n\n" ((ps.map pyStrip).filter (fun t => t ≠ ""))

/-- The first selector hit: the Python loop `for selector in ...` with
`break` on the first truthy `select_one` result. -/
def firstSelectorHit (soup : HtmlDoc) : Option HtmlElement :=
  content_selectors.foldl (fun acc sel => acc.orElse (fun _ => soup.selectOne sel)) none

/-- Embeds `get_article_content` of src/app.py.  A network error is caught
and yields `None`.  Otherwise the selectors are tried in order; on a hit
its paragraphs are joined, with `None` for empty content.  If no selector
matches, the code calls `soup.find(<body tag>).find_all(<p tag>)`; when the
document has no body element that access raises an uncaught
`AttributeError`, modeled as `.error`. -/
def get_article_content (world : String → ScrapeResult) (article_url : String) :
    Except PyError (Option String) :=
  match world article_url with
  | .requestError => .ok none
  | .page soup =>
    match firstSelectorHit soup with
    | some article_body =>
      let content := joinedText article_body.ps
      .ok (if content = "" then none else some content)
    | none =>
      match soup.body with
      | none => .error .attributeError
      | some b =>
        let content := joinedText b.ps
        .ok (if content = "" then none else some content)

/-- The `styled_result` value the job loop inspects: `isTruthy` is the
Python truthiness of the parsed value, the remaining fields model
`dict.get` on the corresponding keys (absent key or JSON null = `none`). -/
structure StyledResult where
  isTruthy : Bool
  headline_th : Option String
  body_th_styled : Option String
  image_url : Option String
  url : Option String
  source : Option String
  deriving DecidableEq, Repr

/-- The final article dict built in `run_full_job` step 6. -/
structure FinalArticle where
  id : String
  headline : Option String
  url : String
  image_url : Option String
  body : String
  source : Option String
  deriving DecidableEq, Repr

/-- The fallback dict `translate_and_style_article` returns when the key
is missing or dummy, or when any exception occurs (API error or JSON
parse failure): the original headline and body, under the styled keys.
A two-key dict is always truthy. -/
def fallbackStyled (headline : Option String) (body : Option String) : StyledResult :=
  ⟨true, headline, body, none, none, none⟩

/-- Embeds `translate_and_style_article` of src/app.py.  The external call
chain (`generate_content`, markdown cleanup, `json.loads`) is one oracle:
`some r` is a successfully parsed response value, `none` is any exception
in the `try` block.  The oracle is indexed by a process-wide call counter
(`calls`), threaded so the number and order of external calls is
observable; the function makes exactly one call when the key is present
and not the dummy, and zero calls otherwise.  Returns the styled result
and the updated call counter. -/
def translate_and_style_article (env : String → Option String)
    (gemini : Nat → FinalArticle → Option StyledResult)
    (calls : Nat) (article : FinalArticle) : StyledResult × Nat :=
  let headline := article.headline
  let body := article.body
  if strFalsy (env "GEMINI_API_KEY") || (env "GEMINI_API_KEY" == some "DUMMY_KEY") then
    (fallbackStyled headline (some body), calls)
  else
    match gemini calls article with
    | some styled_content => (styled_content, calls + 1)
    | none => (fallbackStyled headline (some body), calls + 1)

/-- Embeds `post_to_facebook` of src/app.py.  Missing or empty page id or
token: return `false` without posting.  Otherwise the whole Graph/image
call chain is one oracle returning the success flag; every exception in
the Python `try` block is caught and returns `False`, so the call is total. -/
def post_to_facebook (env : String → Option String)
    (fb : StyledResult → Bool) (article_data : StyledResult) : Bool :=
  if strFalsy (env "FACEBOOK_PAGE_ID") || strFalsy (env "FACEBOOK_ACCESS_TOKEN") then
    false
  else
    fb article_data

/-- All external collaborators of one `run_full_job` invocation. -/
structure World where
  env : String → Option String
  file0 : List String
  fetch : String → Except Unit (List ArticleSummary)
  scrape : String → ScrapeResult
  gemini : Nat → FinalArticle → Option StyledResult
  fb : StyledResult → Bool

/-- Mutable state plus observation trace of one run.  `fileLines` is the
durable history file; `newPosts` the success counter; `gemCalls` the
Gemini call counter; `historyLoaded` and `fetchCalled` record whether the
run reached the history load and the feed fetch; the four trace lists
record, in order, the ids of candidates that entered the loop body, were
scraped, were sent to rewrite, and the publish attempts with their
results; `publishedIds` the ids appended to history; `err` an uncaught
exception that aborted the run. -/
structure RunState where
  fileLines : List String
  newPosts : Nat
  gemCalls : Nat
  historyLoaded : Bool
  fetchCalled : Bool
  visitedIds : List String
  scrapedIds : List String
  rewriteIds : List String
  postAttempts : List (String × Bool)
  publishedIds : List String
  err : Option PyError
  deriving DecidableEq, Repr

/-- Outcome of processing one candidate in the loop body. -/
inductive StepOut
  | dupSkip
  | noUrl
  | crash (e : PyError)
  | noContent
  | rewriteSkip
  | postResult (ok : Bool)
  deriving DecidableEq, Repr

/-- The final article dict built in `run_full_job` step 6: id, headline,
url, first image url (if any image object is present), scraped body,
source tag. -/
def buildFinalArticle (article_id : String) (s : ArticleSummary)
    (article_url : String) (full_content : String) : FinalArticle :=
  let image_url := match s.images with
    | [] => none
    | i :: _ => i
  ⟨article_id, s.headline, article_url, image_url, full_content, s.source⟩

/-- The merge in `run_full_job` step 8 before posting: copy the image
url, canonical url and source tag onto the styled result. -/
def mergeStyled (styled : StyledResult) (fa : FinalArticle) : StyledResult :=
  ⟨styled.isTruthy, styled.headline_th, styled.body_th_styled,
   fa.image_url, some fa.url, fa.source⟩

/-- One iteration of the loop body of `run_full_job` (after the cap
check): duplicate check against `posted_ids` (the set loaded at run
start, which the Python code never updates in-memory), url check, scrape,
rewrite, guard, post.  Returns the step outcome and the updated Gemini
call counter. -/
def processArticle (w : World) (posted_ids : List String) (gem : Nat)
    (article_summary : ArticleSummary) : StepOut × Nat :=
  let article_id := pyStr article_summary.id
  if article_id ∈ posted_ids then
    (.dupSkip, gem)
  else
    match article_summary.link with
    | none => (.noUrl, gem)
    | some article_url =>
      if article_url = "" then (.noUrl, gem)
      else
        match get_article_content w.scrape article_url with
        | .error e => (.crash e, gem)
        | .ok none => (.noContent, gem)
        | .ok (some full_content) =>
          let final_article := buildFinalArticle article_id article_summary article_url full_content
          let styled := translate_and_style_article w.env w.gemini gem final_article
          if styled.1.isTruthy = true ∧ styled.1.headline_th ≠ final_article.headline then
            let ok := post_to_facebook w.env w.fb (mergeStyled styled.1 final_article)
            (.postResult ok, styled.2)
          else
            (.rewriteSkip, styled.2)

/-- State update for one loop iteration: record the visited id, the
per-outcome traces, and on publish success append to the history file
via `save_posted_id`, bump the counter and record the published id.
A crash records the exception; nothing clears it. -/
def applyStep (article_id : String) (out : StepOut) (gem : Nat) (st : RunState) : RunState :=
  let visited := st.visitedIds ++ [article_id]
  match out with
  | .dupSkip =>
    ⟨st.fileLines, st.newPosts, gem, st.historyLoaded, st.fetchCalled, visited,
     st.scrapedIds, st.rewriteIds, st.postAttempts, st.publishedIds, st.err⟩
  | .noUrl =>
    ⟨st.fileLines, st.newPosts, gem, st.historyLoaded, st.fetchCalled, visited,
     st.scrapedIds, st.rewriteIds, st.postAttempts, st.publishedIds, st.err⟩
  | .crash e =>
    ⟨st.fileLines, st.newPosts, gem, st.historyLoaded, st.fetchCalled, visited,
     st.scrapedIds ++ [article_id], st.rewriteIds, st.postAttempts, st.publishedIds, some e⟩
  | .noContent =>
    ⟨st.fileLines, st.newPosts, gem, st.historyLoaded, st.fetchCalled, visited,
     st.scrapedIds ++ [article_id], st.rewriteIds, st.postAttempts, st.publishedIds, st.err⟩
  | .rewriteSkip =>
    ⟨st.fileLines, st.newPosts, gem, st.historyLoaded, st.fetchCalled, visited,
     st.scrapedIds ++ [article_id], st.rewriteIds ++ [article_id], st.postAttempts,
     st.publishedIds, st.err⟩
  | .postResult ok =>
    if ok then
      ⟨save_posted_id st.fileLines article_id, st.newPosts + 1, gem, st.historyLoaded,
       st.fetchCalled, visited, st.scrapedIds ++ [article_id], st.rewriteIds ++ [article_id],
       st.postAttempts ++ [(article_id, ok)], st.publishedIds ++ [article_id], st.err⟩
    else
      ⟨st.fileLines, st.newPosts, gem, st.historyLoaded, st.fetchCalled, visited,
       st.scrapedIds ++ [article_id], st.rewriteIds ++ [article_id],
       st.postAttempts ++ [(article_id, ok)], st.publishedIds, st.err⟩

/-- The candidate loop of `run_full_job`: an uncaught exception stops the
iteration (and skips the rest of the function body, which only prints);
the cap check `new_posts_made >= 5` breaks; otherwise one candidate is
processed and the state updated. -/
def jobLoop (w : World) (posted_ids : List String) :
    List ArticleSummary → RunState → RunState
  | [], st => st
  | article_summary :: rest, st =>
    if st.err ≠ none then st
    else if st.newPosts ≥ 5 then st
    else
      let r := processArticle w posted_ids st.gemCalls article_summary
      jobLoop w posted_ids rest (applyStep (pyStr article_summary.id) r.1 r.2 st)

/-- Initial run state over a given history file. -/
def initState (file0 : List String) (loaded : Bool) (fetched : Bool) : RunState :=
  ⟨file0, 0, 0, loaded, fetched, [], [], [], [], [], none⟩

/-- Embeds `run_full_job` of src/app.py: abort before loading history or
fetching anything if any of the three secrets is falsy; otherwise load
the posted ids once, fetch and tag all feeds, filter out `Media`
summaries, sort by `published` descending, and run the candidate loop. -/
def run_full_job (w : World) : RunState :=
  if strFalsy (w.env "GEMINI_API_KEY") || strFalsy (w.env "FACEBOOK_ACCESS_TOKEN")
      || strFalsy (w.env "FACEBOOK_PAGE_ID") then
    initState w.file0 false false
  else
    let posted_ids := load_posted_ids w.file0
    let raw_articles := get_espn_news w.fetch
    let sorted_articles := candidateOrder raw_articles
    jobLoop w posted_ids sorted_articles (initState w.file0 true true)

/-- Contribution of a single league feed to `get_espn_news`: a failing
fetch contributes the empty list, a succeeding fetch contributes its
tagged articles. -/
def leagueContribution (fetch : String → Except Unit (List ArticleSummary))
    (p : String × String) : List ArticleSummary :=
  match fetch p.1 with
  | .ok api_articles => api_articles.map (tagArticle p.2)
  | .error _ => []

/-- A scrape result on which `get_article_content` cannot raise: a caught
network error, or a page where some content selector matches or a body
element exists. -/
def ScrapeSafe : ScrapeResult → Prop
  | .requestError => True
  | .page d => (firstSelectorHit d).isSome = true ∨ d.body.isSome = true

/-- Environment holding all three secrets, with a real (non-dummy) key. -/
def envEx : String → Option String := fun k =>
  if k = "GEMINI_API_KEY" then some "G"
  else if k = "FACEBOOK_ACCESS_TOKEN" then some "T"
  else if k = "FACEBOOK_PAGE_ID" then some "P"
  else none

/-- Environment with the Gemini key absent. -/
def envNoGemini : String → Option String := fun k =>
  if k = "FACEBOOK_ACCESS_TOKEN" then some "T"
  else if k = "FACEBOOK_PAGE_ID" then some "P"
  else none

/-- A well-formed textual article summary with id `X`. -/
def artX : ArticleSummary :=
  ⟨some "X", some "EN headline", some "2025-08-25T21:15:26Z", none,
   some "http://example/article", [some "http://example/img"], none, none⟩

/-- A well-formed textual article summary with id `Y`. -/
def artY : ArticleSummary :=
  ⟨some "Y", some "HY", some "2025-08-25T05:00:00Z", none,
   some "http://example/y", [], none, none⟩

/-- Newest summary of the ordering example (timestamp T minus 1). -/
def art1 : ArticleSummary :=
  ⟨some "A1", some "H1", some "2025-08-25T03:00:00Z", none,
   some "http://example/1", [], none, none⟩

/-- Middle summary of the ordering example (timestamp T minus 2). -/
def art2 : ArticleSummary :=
  ⟨some "A2", some "H2", some "2025-08-25T02:00:00Z", none,
   some "http://example/2", [], none, none⟩

/-- Oldest summary of the ordering example (timestamp T minus 3). -/
def art3 : ArticleSummary :=
  ⟨some "A3", some "H3", some "2025-08-25T01:00:00Z", none,
   some "http://example/3", [], none, none⟩

/-- A media summary, filtered out by the collector. -/
def artM : ArticleSummary :=
  ⟨some "AM", some "HM", some "2025-08-25T04:00:00Z", some "Media",
   some "http://example/m", [], none, none⟩

/-- A page on which the first content selector matches one paragraph. -/
def docHit : HtmlDoc :=
  ⟨fun _ => some ⟨["Body paragraph."]⟩, some ⟨["Body paragraph."]⟩⟩

/-- A page with no selector match and no body element. -/
def docNoBody : HtmlDoc := ⟨fun _ => none, none⟩

/-- Feeds where two leagues both return the summary with id `X`. -/
def fetchDup : String → Except Unit (List ArticleSummary) := fun code =>
  if code = "eng.1" then .ok [artX]
  else if code = "esp.1" then .ok [artX]
  else .ok []

/-- Feeds where only the first league returns one summary. -/
def fetchOne : String → Except Unit (List ArticleSummary) := fun code =>
  if code = "eng.1" then .ok [artX] else .ok []

/-- Feeds where the first league errors and the second returns one summary. -/
def fetchEngDown : String → Except Unit (List ArticleSummary) := fun code =>
  if code = "eng.1" then .error ()
  else if code = "esp.1" then .ok [artY]
  else .ok []

/-- A rewrite oracle that always parses to a distinct Thai headline. -/
def geminiOk : Nat → FinalArticle → Option StyledResult := fun _ _ =>
  some ⟨true, some "TH headline", some "TH body", none, none, none⟩

/-- The parsed response value the quota-sweep scenario expects from the
third credential. -/
def styledTH : StyledResult := ⟨true, some "TH", some "THB", none, none, none⟩

/-- A concrete final article for rewrite-level statements. -/
def faEx : FinalArticle :=
  ⟨"X", some "EN headline", "http://example/article", none, "Body paragraph.", none⟩

/-- Per-call outcome sequence of the rotation-sweep scenario: the first
two calls fail (quota), the third succeeds. -/
def seqQuota : Nat → FinalArticle → Option StyledResult := fun n _ =>
  if n ≤ 1 then none else some styledTH

/-- World with one duplicated candidate across two feeds and every
external step succeeding. -/
def wDup : World :=
  ⟨envEx, [], fetchDup, fun _ => .page docHit, geminiOk, fun _ => true⟩

/-- World whose scraped pages have no matching container and no body. -/
def wCrash : World :=
  ⟨envEx, [], fetchOne, fun _ => .page docNoBody, geminiOk, fun _ => true⟩

/-- World whose scraped pages always have a matching container. -/
def wSafe : World :=
  ⟨envEx, [], fetchOne, fun _ => .page docHit, geminiOk, fun _ => true⟩

/-- World whose history file already contains the only candidate id. -/
def wHist : World :=
  ⟨envEx, ["X"], fetchOne, fun _ => .page docHit, geminiOk, fun _ => true⟩

/-- World in which every publish attempt fails. -/
def wAllFail : World :=
  ⟨envEx, [], fetchOne, fun _ => .page docHit, geminiOk, fun _ => false⟩

/-- World in which every rewrite call fails. -/
def wGemFail : World :=
  ⟨envEx, [], fetchOne, fun _ => .page docHit, fun _ _ => none, fun _ => true⟩

/-- World with the Gemini key missing from the environment. -/
def wNoCreds : World :=
  ⟨envNoGemini, ["old-line"], fetchOne, fun _ => .requestError, geminiOk, fun _ => true⟩

section OrderLemmas

theorem listStrLt_nil_right (a : List Char) : listStrLt a [] = false := by
  cases a <;> rfl

theorem listStrLt_irrefl (a : List Char) : listStrLt a a = false := by
  induction a with
  | nil => rfl
  | cons c cs ih => simp [listStrLt, lt_self_iff_false, ih]

theorem listStrLt_asymm (a : List Char) :
    ∀ b, listStrLt a b = true → listStrLt b a = false := by
  induction a with
  | nil =>
    intro b hab
    cases b with
    | nil => simp [listStrLt] at hab
    | cons y ys => exact listStrLt_nil_right _
  | cons x xs ih =>
    intro b hab
    cases b with
    | nil => simp [listStrLt] at hab
    | cons y ys =>
      simp only [listStrLt] at hab ⊢
      split_ifs at hab with h1 h2 <;> split_ifs with h3 h4 <;>
        first
        | rfl
        | omega
        | exact ih ys hab
        | simp_all

theorem listStrLt_false_trans (a : List Char) :
    ∀ b c, listStrLt a b = false → listStrLt b c = false → listStrLt a c = false := by
  induction a with
  | nil =>
    intro b c hab hbc
    cases b with
    | nil => exact hbc
    | cons y ys => simp [listStrLt] at hab
  | cons x xs ih =>
    intro b c hab hbc
    cases c with
    | nil => exact listStrLt_nil_right _
    | cons z zs =>
      cases b with
      | nil => simp [listStrLt] at hbc
      | cons y ys =>
        simp only [listStrLt] at hab hbc ⊢
        split_ifs at hab with h1 h2 <;> split_ifs at hbc with h3 h4 <;>
          split_ifs with h5 h6 <;>
          first
          | rfl
          | omega
          | exact ih ys zs hab hbc
          | simp_all

theorem pyStrLt_irrefl (s : String) : pyStrLt s s = false :=
  listStrLt_irrefl s.data

theorem pyStrLt_asymm (s t : String) (h : pyStrLt s t = true) : pyStrLt t s = false :=
  listStrLt_asymm s.data t.data h

theorem pyStrLt_false_trans (s t u : String) (h1 : pyStrLt s t = false)
    (h2 : pyStrLt t u = false) : pyStrLt s u = false :=
  listStrLt_false_trans s.data t.data u.data h1 h2

end OrderLemmas

section SortLemmas

variable (key : ArticleSummary → String)

theorem mem_insertDesc (x a : ArticleSummary) :
    ∀ l, a ∈ insertDesc key x l ↔ a = x ∨ a ∈ l := by
  intro l
  induction l with
  | nil => simp [insertDesc]
  | cons y ys ih =>
    simp only [insertDesc]
    split
    · simp only [List.mem_cons, ih]
      tauto
    · simp [List.mem_cons]

theorem perm_insertDesc (x : ArticleSummary) :
    ∀ l, List.Perm (insertDesc key x l) (x :: l) := by
  intro l
  induction l with
  | nil => exact List.Perm.refl _
  | cons y ys ih =>
    simp only [insertDesc]
    split
    · exact List.Perm.trans (List.Perm.cons y ih) (List.Perm.swap x y ys)
    · exact List.Perm.refl _

theorem perm_pySortDesc : ∀ l, List.Perm (pySortDesc key l) l := by
  intro l
  induction l with
  | nil => exact List.Perm.refl _
  | cons x xs ih =>
    exact List.Perm.trans (perm_insertDesc key x (pySortDesc key xs)) (List.Perm.cons x ih)

theorem pairwise_insertDesc (x : ArticleSummary) :
    ∀ l, l.Pairwise (fun a b => pyStrLt (key a) (key b) = false) →
      (insertDesc key x l).Pairwise (fun a b => pyStrLt (key a) (key b) = false) := by
  intro l
  induction l with
  | nil => intro _; simp [insertDesc]
  | cons y ys ih =>
    intro h
    rw [List.pairwise_cons] at h
    simp only [insertDesc]
    split
    · rename_i hlt
      rw [List.pairwise_cons]
      refine ⟨?_, ih h.2⟩
      intro z hz
      rcases (mem_insertDesc key x z ys).mp hz with hzx | hzys
      · subst hzx
        exact pyStrLt_asymm _ _ hlt
      · exact h.1 z hzys
    · rename_i hnlt
      have hxy : pyStrLt (key x) (key y) = false := by
        cases hv : pyStrLt (key x) (key y) with
        | false => rfl
        | true => exact absurd hv hnlt
      rw [List.pairwise_cons]
      refine ⟨?_, List.pairwise_cons.mpr h⟩
      intro z hz
      rcases List.mem_cons.mp hz with hzy | hzys
      · subst hzy; exact hxy
      · exact pyStrLt_false_trans _ _ _ hxy (h.1 z hzys)

theorem pairwise_pySortDesc :
    ∀ l, (pySortDesc key l).Pairwise (fun a b => pyStrLt (key a) (key b) = false) := by
  intro l
  induction l with
  | nil => simp [pySortDesc]
  | cons x xs ih => exact pairwise_insertDesc key x _ ih

theorem filter_insertDesc_eq (x : ArticleSummary) (c : String) (hc : key x = c) :
    ∀ l, (insertDesc key x l).filter (fun a => key a == c)
      = x :: l.filter (fun a => key a == c) := by
  intro l
  induction l with
  | nil => simp [insertDesc, List.filter, hc]
  | cons y ys ih =>
    simp only [insertDesc]
    split
    · rename_i hlt
      have hyc : (key y == c) = false := by
        rw [beq_eq_false_iff_ne]
        intro hy
        rw [hc, ← hy] at hlt
        rw [pyStrLt_irrefl] at hlt
        exact Bool.false_ne_true hlt
      simp only [List.filter_cons, hyc, ih]
      simp
    · simp [List.filter_cons, hc]

theorem filter_insertDesc_ne (x : ArticleSummary) (c : String) (hc : key x ≠ c) :
    ∀ l, (insertDesc key x l).filter (fun a => key a == c)
      = l.filter (fun a => key a == c) := by
  intro l
  have hxc : (key x == c) = false := beq_eq_false_iff_ne.mpr hc
  induction l with
  | nil => simp [insertDesc, List.filter, hxc]
  | cons y ys ih =>
    simp only [insertDesc]
    split
    · simp only [List.filter_cons, ih]
    · simp only [List.filter_cons, hxc]
      simp

theorem filter_pySortDesc (c : String) :
    ∀ l, (pySortDesc key l).filter (fun a => key a == c)
      = l.filter (fun a => key a == c) := by
  intro l
  induction l with
  | nil => rfl
  | cons x xs ih =>
    simp only [pySortDesc]
    by_cases hx : key x = c
    · rw [filter_insertDesc_eq key x c hx _, ih, List.filter_cons]
      simp [hx]
    · rw [filter_insertDesc_ne key x c hx _, ih, List.filter_cons]
      simp [beq_eq_false_iff_ne.mpr hx]

end SortLemmas

section RunLemmas

variable (w : World) (p : List String)

theorem jobLoop_err_stop (l : List ArticleSummary) (st : RunState) (h : st.err ≠ none) :
    jobLoop w p l st = st := by
  cases l with
  | nil => rfl
  | cons a rest => simp [jobLoop, h]

theorem applyStep_err_preserved (i : String) (o : StepOut) (g : Nat) (st : RunState)
    (h : ∀ e, o ≠ .crash e) : (applyStep i o g st).err = st.err := by
  cases o with
  | crash e => exact absurd rfl (h e)
  | postResult ok => cases ok <;> simp [applyStep]
  | _ => simp [applyStep]

theorem applyStep_hist (i : String) (o : StepOut) (g : Nat) (st : RunState) (f0 : List String)
    (h : st.fileLines = f0 ++ st.publishedIds) :
    (applyStep i o g st).fileLines = f0 ++ (applyStep i o g st).publishedIds := by
  cases o with
  | postResult ok =>
    cases ok <;> simp [applyStep, save_posted_id, h]
  | _ => simp [applyStep, h]

theorem applyStep_posts_len (i : String) (o : StepOut) (g : Nat) (st : RunState)
    (h : st.newPosts = st.publishedIds.length) :
    (applyStep i o g st).newPosts = (applyStep i o g st).publishedIds.length := by
  cases o with
  | postResult ok =>
    cases ok <;> simp [applyStep, h]
  | _ => simp [applyStep, h]

theorem applyStep_published_filter (i : String) (o : StepOut) (g : Nat) (st : RunState)
    (h : st.publishedIds = (st.postAttempts.filter (fun q => q.2)).map Prod.fst) :
    (applyStep i o g st).publishedIds
      = ((applyStep i o g st).postAttempts.filter (fun q => q.2)).map Prod.fst := by
  cases o with
  | postResult ok =>
    cases ok <;> simp [applyStep, List.filter_append, List.map_append, h]
  | _ => simp [applyStep, h]

theorem applyStep_newPosts_le (i : String) (o : StepOut) (g : Nat) (st : RunState) :
    (applyStep i o g st).newPosts ≤ st.newPosts + 1 := by
  cases o with
  | postResult ok => cases ok <;> simp [applyStep]
  | _ => simp [applyStep]

theorem jobLoop_hist (f0 : List String) :
    ∀ (l : List ArticleSummary) (st : RunState), st.fileLines = f0 ++ st.publishedIds →
      (jobLoop w p l st).fileLines = f0 ++ (jobLoop w p l st).publishedIds := by
  intro l
  induction l with
  | nil => intro st h; exact h
  | cons a rest ih =>
    intro st h
    simp only [jobLoop]
    split
    · exact h
    · split
      · exact h
      · exact ih _ (applyStep_hist _ _ _ _ f0 h)

theorem jobLoop_posts_len :
    ∀ (l : List ArticleSummary) (st : RunState), st.newPosts = st.publishedIds.length →
      (jobLoop w p l st).newPosts = (jobLoop w p l st).publishedIds.length := by
  intro l
  induction l with
  | nil => intro st h; exact h
  | cons a rest ih =>
    intro st h
    simp only [jobLoop]
    split
    · exact h
    · split
      · exact h
      · exact ih _ (applyStep_posts_len _ _ _ _ h)

theorem jobLoop_published_filter :
    ∀ (l : List ArticleSummary) (st : RunState),
      st.publishedIds = (st.postAttempts.filter (fun q => q.2)).map Prod.fst →
      (jobLoop w p l st).publishedIds
        = ((jobLoop w p l st).postAttempts.filter (fun q => q.2)).map Prod.fst := by
  intro l
  induction l with
  | nil => intro st h; exact h
  | cons a rest ih =>
    intro st h
    simp only [jobLoop]
    split
    · exact h
    · split
      · exact h
      · exact ih _ (applyStep_published_filter _ _ _ _ h)

theorem jobLoop_cap :
    ∀ (l : List ArticleSummary) (st : RunState), st.newPosts ≤ 5 →
      (jobLoop w p l st).newPosts ≤ 5 := by
  intro l
  induction l with
  | nil => intro st h; exact h
  | cons a rest ih =>
    intro st h
    simp only [jobLoop]
    split
    · exact h
    · split
      · exact h
      · rename_i hcap
        refine ih _ ?_
        have := applyStep_newPosts_le (pyStr a.id)
          (processArticle w p st.gemCalls a).1 (processArticle w p st.gemCalls a).2 st
        omega

end RunLemmas

section StepLemmas

variable (w : World) (p : List String)

theorem post_to_facebook_false (env : String → Option String) (fb : StyledResult → Bool)
    (d : StyledResult) (hfb : ∀ x, fb x = false) : post_to_facebook env fb d = false := by
  unfold post_to_facebook
  split
  · rfl
  · exact hfb d

theorem translate_fail (env : String → Option String)
    (gem : Nat → FinalArticle → Option StyledResult) (calls : Nat) (article : FinalArticle)
    (hg : gem calls article = none) :
    (translate_and_style_article env gem calls article).1
      = fallbackStyled article.headline (some article.body) := by
  unfold translate_and_style_article
  split
  · rfl
  · simp [hg]

theorem get_article_content_no_error (world : String → ScrapeResult) (u : String)
    (h : ScrapeSafe (world u)) : ∀ e, get_article_content world u ≠ .error e := by
  intro e
  unfold get_article_content
  cases hw : world u with
  | requestError => simp
  | page d =>
    rw [hw] at h
    simp only [ScrapeSafe] at h
    cases hsel : firstSelectorHit d with
    | some el => simp [hsel]
    | none =>
      cases hb : d.body with
      | none => simp [hsel, hb] at h
      | some b => simp [hsel, hb]

theorem processArticle_no_success (hfb : ∀ d, w.fb d = false) (g : Nat) (a : ArticleSummary) :
    (processArticle w p g a).1 ≠ StepOut.postResult true := by
  simp only [processArticle]
  repeat' split
  all_goals simp_all [post_to_facebook_false w.env w.fb _ hfb]

theorem processArticle_no_crash (hs : ∀ u, ScrapeSafe (w.scrape u)) (g : Nat)
    (a : ArticleSummary) : ∀ e, (processArticle w p g a).1 ≠ StepOut.crash e := by
  intro e
  simp only [processArticle]
  repeat' split
  all_goals first
    | (rename_i heq; exact absurd heq (get_article_content_no_error w.scrape _ (hs _) _))
    | simp

theorem processArticle_rewrite_fail (g : Nat) (a : ArticleSummary)
    (hg : ∀ fa, w.gemini g fa = none) :
    ∀ b, (processArticle w p g a).1 ≠ StepOut.postResult b := by
  intro b
  simp only [processArticle]
  repeat' split
  all_goals simp_all
  rename_i hcond
  rw [translate_fail w.env w.gemini g _ (hg _)] at hcond
  exact absurd rfl hcond.2

theorem processArticle_dup (g : Nat) (a : ArticleSummary) (h : pyStr a.id ∈ p) :
    processArticle w p g a = (StepOut.dupSkip, g) := by
  simp [processArticle, h]

theorem applyStep_no_success (i : String) (o : StepOut) (g : Nat) (st : RunState)
    (h : o ≠ StepOut.postResult true) :
    (applyStep i o g st).publishedIds = st.publishedIds
  ∧ (applyStep i o g st).newPosts = st.newPosts
  ∧ (applyStep i o g st).fileLines = st.fileLines
  ∧ (applyStep i o g st).visitedIds = st.visitedIds ++ [i] := by
  cases o with
  | postResult ok =>
    cases ok with
    | true => exact absurd rfl h
    | false => simp [applyStep]
  | _ => simp [applyStep]

theorem applyStep_no_post (i : String) (o : StepOut) (g : Nat) (st : RunState)
    (h : ∀ b, o ≠ StepOut.postResult b) :
    (applyStep i o g st).fileLines = st.fileLines
  ∧ (applyStep i o g st).publishedIds = st.publishedIds
  ∧ (applyStep i o g st).postAttempts = st.postAttempts := by
  cases o with
  | postResult ok => exact absurd rfl (h ok)
  | _ => simp [applyStep]

theorem applyStep_mem_traces (i id : String) (o : StepOut) (g : Nat) (st : RunState)
    (hne : id ≠ i) :
    (id ∈ (applyStep i o g st).scrapedIds ↔ id ∈ st.scrapedIds)
  ∧ (id ∈ (applyStep i o g st).rewriteIds ↔ id ∈ st.rewriteIds)
  ∧ (id ∈ (applyStep i o g st).publishedIds ↔ id ∈ st.publishedIds)
  ∧ (id ∈ (applyStep i o g st).postAttempts.map Prod.fst
      ↔ id ∈ st.postAttempts.map Prod.fst) := by
  cases o with
  | postResult ok => cases ok <;> simp [applyStep, hne]
  | _ => simp [applyStep, hne]

theorem jobLoop_no_crash (hs : ∀ u, ScrapeSafe (w.scrape u)) :
    ∀ (l : List ArticleSummary) (st : RunState), st.err = none →
      (jobLoop w p l st).err = none := by
  intro l
  induction l with
  | nil => intro st h; exact h
  | cons a rest ih =>
    intro st h
    simp only [jobLoop]
    split
    · exact h
    split
    · exact h
    refine ih _ ?_
    rw [applyStep_err_preserved]
    · exact h
    · exact fun e => processArticle_no_crash w p hs st.gemCalls a e

theorem jobLoop_all_fail (hfb : ∀ d, w.fb d = false) :
    ∀ (l : List ArticleSummary) (st : RunState), st.newPosts = 0 →
      (jobLoop w p l st).publishedIds = st.publishedIds
    ∧ (jobLoop w p l st).newPosts = 0
    ∧ ((jobLoop w p l st).err = none →
        (jobLoop w p l st).visitedIds = st.visitedIds ++ l.map (fun a => pyStr a.id)) := by
  intro l
  induction l with
  | nil =>
    intro st h
    exact ⟨rfl, h, fun _ => by simp [jobLoop]⟩
  | cons a rest ih =>
    intro st h
    simp only [jobLoop]
    split
    · rename_i herr
      exact ⟨rfl, h, fun hno => absurd hno herr⟩
    split
    · rename_i hcap
      exact absurd h (by omega)
    have hno : (processArticle w p st.gemCalls a).1 ≠ StepOut.postResult true :=
      processArticle_no_success w p hfb st.gemCalls a
    obtain ⟨e1, e2, e3, e4⟩ :=
      applyStep_no_success (pyStr a.id) _ (processArticle w p st.gemCalls a).2 st hno
    obtain ⟨i1, i2, i3⟩ := ih _ (by rw [e2, h])
    refine ⟨i1.trans e1, i2, fun hnone => ?_⟩
    rw [i3 hnone, e4]
    simp

theorem jobLoop_dedup (id : String) (hid : id ∈ p) :
    ∀ (l : List ArticleSummary) (st : RunState),
      id ∉ st.scrapedIds → id ∉ st.rewriteIds → id ∉ st.publishedIds →
      id ∉ st.postAttempts.map Prod.fst →
        id ∉ (jobLoop w p l st).scrapedIds
      ∧ id ∉ (jobLoop w p l st).rewriteIds
      ∧ id ∉ (jobLoop w p l st).publishedIds
      ∧ id ∉ (jobLoop w p l st).postAttempts.map Prod.fst := by
  intro l
  induction l with
  | nil => intro st h1 h2 h3 h4; exact ⟨h1, h2, h3, h4⟩
  | cons a rest ih =>
    intro st h1 h2 h3 h4
    simp only [jobLoop]
    split
    · exact ⟨h1, h2, h3, h4⟩
    split
    · exact ⟨h1, h2, h3, h4⟩
    by_cases hia : pyStr a.id = id
    · rw [processArticle_dup w p st.gemCalls a (by rw [hia]; exact hid)]
      exact ih _ h1 h2 h3 h4
    · obtain ⟨t1, t2, t3, t4⟩ :=
        applyStep_mem_traces (pyStr a.id) id (processArticle w p st.gemCalls a).1
          (processArticle w p st.gemCalls a).2 st (fun hx => hia hx.symm)
      exact ih _ (fun hx => h1 (t1.mp hx)) (fun hx => h2 (t2.mp hx))
        (fun hx => h3 (t3.mp hx)) (fun hx => h4 (t4.mp hx))

theorem espn_fold (fetch : String → Except Unit (List ArticleSummary)) :
    ∀ (L : List (String × String)) (acc : List ArticleSummary),
      L.foldl
        (fun all_articles p =>
          match fetch p.1 with
          | .ok api_articles => all_articles ++ api_articles.map (tagArticle p.2)
          | .error _ => all_articles)
        acc
      = acc ++ (L.map (leagueContribution fetch)).flatten := by
  intro L
  induction L with
  | nil => intro acc; simp
  | cons q qs ih =>
    intro acc
    simp only [List.foldl_cons, List.map_cons, List.flatten_cons]
    rw [ih]
    cases hq : fetch q.1 <;> simp [leagueContribution, hq]

end StepLemmas

/-- C1: refutation exhibit for the within-run duplicate suppression
claim.  In a run with empty history where two league feeds return the
same id `X` and every scrape, rewrite and publish succeeds, the code
publishes id `X` twice and appends it to the history file twice: the
second candidate with the same id is not skipped, because `run_full_job`
never adds a freshly published id to the in-memory `posted_ids` set
(only `save_posted_id` writes the file, which is not re-read during the
run). -/
theorem C1_same_id_published_twice :
    (run_full_job wDup).publishedIds = ["X", "X"]
  ∧ (run_full_job wDup).fileLines = ["X", "X"]
  ∧ (run_full_job wDup).newPosts = 2
  ∧ load_posted_ids wDup.file0 = [] := by
  decide

/-- C2: cap invariant.  In every run the success counter equals the
number of history additions, at most 5 articles are published, the
history file only grows by the published ids (so at most 5 additions),
and when every publish attempt fails the run publishes nothing and the
loop visits every candidate (it ends by exhaustion, not after 5
attempts), provided no uncaught exception aborted the loop. -/
theorem C2_cap_invariant (w : World) :
    (run_full_job w).newPosts = (run_full_job w).publishedIds.length
  ∧ (run_full_job w).publishedIds.length ≤ 5
  ∧ (run_full_job w).fileLines = w.file0 ++ (run_full_job w).publishedIds
  ∧ ((∀ d, w.fb d = false) →
      (run_full_job w).publishedIds = []
    ∧ ((run_full_job w).err = none → (run_full_job w).fetchCalled = true →
        (run_full_job w).visitedIds
          = (candidateOrder (get_espn_news w.fetch)).map (fun a => pyStr a.id))) := by
  simp only [run_full_job]
  split
  · refine ⟨rfl, by simp [initState], by simp [initState], fun hfb => ⟨rfl, fun _ hf => ?_⟩⟩
    simp [initState] at hf
  · have hposts := jobLoop_posts_len w (load_posted_ids w.file0)
      (candidateOrder (get_espn_news w.fetch)) (initState w.file0 true true) rfl
    have hcap := jobLoop_cap w (load_posted_ids w.file0)
      (candidateOrder (get_espn_news w.fetch)) (initState w.file0 true true)
      (by simp [initState])
    have hhist := jobLoop_hist w (load_posted_ids w.file0) w.file0
      (candidateOrder (get_espn_news w.fetch)) (initState w.file0 true true)
      (by simp [initState])
    refine ⟨hposts, by omega, hhist, fun hfb => ?_⟩
    have hall := jobLoop_all_fail w (load_posted_ids w.file0) hfb
      (candidateOrder (get_espn_news w.fetch)) (initState w.file0 true true) rfl
    exact ⟨hall.1, fun herr _ => (hall.2.2 herr).trans (by simp [initState])⟩

/-- C2 witness: a concrete world in which every publish attempt fails;
the run publishes nothing and visits the whole candidate list. -/
theorem C2_cap_invariant_witness :
    (∀ d, wAllFail.fb d = false)
  ∧ (run_full_job wAllFail).publishedIds = []
  ∧ (run_full_job wAllFail).visitedIds
      = (candidateOrder (get_espn_news wAllFail.fetch)).map (fun a => pyStr a.id) := by
  have h := (C2_cap_invariant wAllFail).2.2.2 (fun d => rfl)
  exact ⟨fun d => rfl, h.1, h.2 (by decide) (by decide)⟩

/-- C3: dedup invariant.  Any id in the history set loaded at the start
of the run is skipped by the loop: it is never scraped, never sent to
the rewrite step, never the subject of a publish attempt, and never
appended to history in that run. -/
theorem C3_dedup_invariant (w : World) (id : String)
    (h : id ∈ load_posted_ids w.file0) :
    id ∉ (run_full_job w).scrapedIds
  ∧ id ∉ (run_full_job w).rewriteIds
  ∧ id ∉ (run_full_job w).publishedIds
  ∧ id ∉ (run_full_job w).postAttempts.map Prod.fst := by
  simp only [run_full_job]
  split
  · simp [initState]
  · exact jobLoop_dedup w (load_posted_ids w.file0) id h
      (candidateOrder (get_espn_news w.fetch)) (initState w.file0 true true)
      (by simp [initState]) (by simp [initState]) (by simp [initState]) (by simp [initState])

/-- C3 witness: a run whose history file already holds the only
candidate id `X`; the run touches it in no trace. -/
theorem C3_dedup_invariant_witness :
    ("X" ∈ load_posted_ids wHist.file0)
  ∧ "X" ∉ (run_full_job wHist).scrapedIds
  ∧ "X" ∉ (run_full_job wHist).rewriteIds
  ∧ "X" ∉ (run_full_job wHist).publishedIds
  ∧ "X" ∉ (run_full_job wHist).postAttempts.map Prod.fst := by
  have h := C3_dedup_invariant wHist "X" (by decide)
  exact ⟨by decide, h.1, h.2.1, h.2.2.1, h.2.2.2⟩

/-- C4: history append iff publish success.  In every run the ids
appended to the durable history file are exactly the ids of the publish
attempts that reported success, in order; failed attempts leave the file
unchanged. -/
theorem C4_history_append_iff_success (w : World) :
    (run_full_job w).publishedIds
      = ((run_full_job w).postAttempts.filter (fun q => q.2)).map Prod.fst
  ∧ (run_full_job w).fileLines
      = w.file0 ++ ((run_full_job w).postAttempts.filter (fun q => q.2)).map Prod.fst := by
  have h1 : (run_full_job w).publishedIds
      = ((run_full_job w).postAttempts.filter (fun q => q.2)).map Prod.fst := by
    simp only [run_full_job]
    split
    · rfl
    · exact jobLoop_published_filter w (load_posted_ids w.file0)
        (candidateOrder (get_espn_news w.fetch)) (initState w.file0 true true) rfl
  have h2 : (run_full_job w).fileLines = w.file0 ++ (run_full_job w).publishedIds := by
    simp only [run_full_job]
    split
    · simp [initState]
    · exact jobLoop_hist w (load_posted_ids w.file0) w.file0
        (candidateOrder (get_espn_news w.fetch)) (initState w.file0 true true)
        (by simp [initState])
  exact ⟨h1, h2.trans (by rw [h1])⟩

/-- C5: rewrite-failure policy.  If the rewrite call made for a
candidate fails (the external call chain returns nothing), the loop
iteration for that candidate leaves the history file unchanged, appends
no published id, and makes no publish attempt: the untranslated original
is not posted and the id stays absent from history. -/
theorem C5_rewrite_failure_skips (w : World) (p : List String) (st : RunState)
    (a : ArticleSummary) (hg : ∀ fa, w.gemini st.gemCalls fa = none) :
    (applyStep (pyStr a.id) (processArticle w p st.gemCalls a).1
        (processArticle w p st.gemCalls a).2 st).fileLines = st.fileLines
  ∧ (applyStep (pyStr a.id) (processArticle w p st.gemCalls a).1
        (processArticle w p st.gemCalls a).2 st).publishedIds = st.publishedIds
  ∧ (applyStep (pyStr a.id) (processArticle w p st.gemCalls a).1
        (processArticle w p st.gemCalls a).2 st).postAttempts = st.postAttempts :=
  applyStep_no_post (pyStr a.id) (processArticle w p st.gemCalls a).1
    (processArticle w p st.gemCalls a).2 st
    (processArticle_rewrite_fail w p st.gemCalls a hg)

/-- C5 witness: a concrete loop iteration whose rewrite call fails;
history and publish traces are unchanged. -/
theorem C5_rewrite_failure_skips_witness :
    (∀ fa, wGemFail.gemini (initState [] true true).gemCalls fa = none)
  ∧ ((applyStep (pyStr artX.id) (processArticle wGemFail [] (initState [] true true).gemCalls artX).1
        (processArticle wGemFail [] (initState [] true true).gemCalls artX).2
        (initState [] true true)).fileLines = (initState [] true true).fileLines
    ∧ (applyStep (pyStr artX.id) (processArticle wGemFail [] (initState [] true true).gemCalls artX).1
        (processArticle wGemFail [] (initState [] true true).gemCalls artX).2
        (initState [] true true)).publishedIds = (initState [] true true).publishedIds
    ∧ (applyStep (pyStr artX.id) (processArticle wGemFail [] (initState [] true true).gemCalls artX).1
        (processArticle wGemFail [] (initState [] true true).gemCalls artX).2
        (initState [] true true)).postAttempts = (initState [] true true).postAttempts) :=
  ⟨fun fa => rfl,
   C5_rewrite_failure_skips wGemFail [] (initState [] true true) artX (fun fa => rfl)⟩

/-- C6: candidate ordering.  The collector pipeline keeps exactly the
summaries whose type is not `Media` (as a permutation of the filtered
input), orders them so no later element has a strictly larger
`published` key (descending), preserves the relative order of summaries
with equal keys (for every key value, the sublist with that key is
unchanged), and on the concrete example with timestamps T-3, T-1, T-2
produces the order T-1, T-2, T-3. -/
theorem C6_candidate_ordering :
    (∀ raw, (candidateOrder raw).Pairwise
        (fun a b => pyStrLt (publishedKey a) (publishedKey b) = false))
  ∧ (∀ raw, List.Perm (candidateOrder raw) (raw.filter (fun a => a.typ ≠ some "Media")))
  ∧ (∀ raw c, (candidateOrder raw).filter (fun a => publishedKey a == c)
      = (raw.filter (fun a => a.typ ≠ some "Media")).filter (fun a => publishedKey a == c))
  ∧ candidateOrder [art3, artM, art1, art2] = [art1, art2, art3] :=
  ⟨fun raw => pairwise_pySortDesc publishedKey _,
   fun raw => perm_pySortDesc publishedKey _,
   fun raw c => filter_pySortDesc publishedKey c _,
   by decide⟩

/-- C7: partial feed-failure tolerance.  The collector equals the
concatenation of per-league contributions, where a failing fetch
contributes the empty list and a succeeding fetch contributes its tagged
articles: one failing feed never suppresses the others; concretely, with
the first league down, the second league candidate is still returned. -/
theorem C7_feed_failure_tolerance :
    (∀ fetch, get_espn_news fetch = (leagues.map (leagueContribution fetch)).flatten)
  ∧ fetchEngDown "eng.1" = .error ()
  ∧ get_espn_news fetchEngDown = [tagArticle "La Liga" artY] := by
  refine ⟨fun fetch => ?_, rfl, by decide⟩
  simpa [get_espn_news] using espn_fold fetch leagues []

/-- C8 counterexample: a scraped page that matches no content selector
and has no body element makes `get_article_content` raise an uncaught
error that escapes `run_full_job`: the run aborts after the first
candidate, refuting the claim that every per-article error is caught
inside the run. -/
theorem C8_uncaught_scrape_error :
    (run_full_job wCrash).err = some PyError.attributeError
  ∧ (run_full_job wCrash).visitedIds = ["X"] := by
  decide

/-- C8 amended: rewrite and publish failures are values, never
exceptions, and network errors during scraping are caught; whenever
every scraped page is either a caught network error or has a matching
content selector or a body element, the run completes with no uncaught
exception. -/
theorem C8_amended_errors_caught (w : World) (hs : ∀ u, ScrapeSafe (w.scrape u)) :
    (run_full_job w).err = none := by
  simp only [run_full_job]
  split
  · rfl
  · exact jobLoop_no_crash w (load_posted_ids w.file0) hs
      (candidateOrder (get_espn_news w.fetch)) (initState w.file0 true true) rfl

/-- C8 witness: a concrete safe world in which the run completes with
no uncaught exception. -/
theorem C8_amended_errors_caught_witness :
    (∀ u, ScrapeSafe (wSafe.scrape u)) ∧ (run_full_job wSafe).err = none :=
  ⟨fun u => Or.inl (by decide),
   C8_amended_errors_caught wSafe (fun u => Or.inl (by decide))⟩

/-- C9 counterexample: with an outcome sequence in which the first two
calls fail with quota errors and the third succeeds, the rewrite step
makes exactly one call (the counter moves from 0 to 1, not to 3) and
returns the English fallback, not the third-call result: there is no
credential pool, no rotation and no cursor in the code. -/
theorem C9_single_call_counterexample :
    translate_and_style_article envEx seqQuota 0 faEx
      = (fallbackStyled faEx.headline (some faEx.body), 1)
  ∧ (translate_and_style_article envEx seqQuota 0 faEx).2 ≠ 3
  ∧ (translate_and_style_article envEx seqQuota 0 faEx).1 ≠ styledTH := by
  decide

/-- C9 amended: the rewrite step holds a single environment credential
and makes at most one external call per article: zero calls when the key
is missing, empty or the dummy, exactly one call otherwise, and its
result depends only on the outcome of that single call (so a failing
first call is never retried with another credential). -/
theorem C9_amended_single_credential (env : String → Option String)
    (gem gem2 : Nat → FinalArticle → Option StyledResult) (calls : Nat)
    (article : FinalArticle) :
    ((translate_and_style_article env gem calls article).2 = calls
      ∨ (translate_and_style_article env gem calls article).2 = calls + 1)
  ∧ (strFalsy (env "GEMINI_API_KEY") = false → env "GEMINI_API_KEY" ≠ some "DUMMY_KEY" →
      (translate_and_style_article env gem calls article).2 = calls + 1)
  ∧ (gem calls article = gem2 calls article →
      translate_and_style_article env gem calls article
        = translate_and_style_article env gem2 calls article) := by
  refine ⟨?_, ?_, ?_⟩
  · unfold translate_and_style_article
    split
    · exact Or.inl rfl
    · cases gem calls article <;> simp
  · intro h1 h2
    have hcond : (strFalsy (env "GEMINI_API_KEY")
        || (env "GEMINI_API_KEY" == some "DUMMY_KEY")) = false := by
      simp [h1, beq_eq_false_iff_ne.mpr h2]
    unfold translate_and_style_article
    simp only [hcond]
    cases gem calls article <;> simp
  · intro h
    unfold translate_and_style_article
    split
    · rfl
    · rw [h]

/-- C9 amended witness: with the key present and not the dummy, one
article advances the call counter by exactly one. -/
theorem C9_amended_single_credential_witness :
    strFalsy (envEx "GEMINI_API_KEY") = false
  ∧ (translate_and_style_article envEx seqQuota 0 faEx).2 = 0 + 1 :=
  ⟨by decide,
   (C9_amended_single_credential envEx seqQuota seqQuota 0 faEx).2.1 (by decide) (by decide)⟩

/-- C10: missing-credential precondition.  If any of the three secrets
is absent from the environment, the run returns the initial state
untouched: history not loaded, nothing fetched, no candidate visited,
nothing published, no publish attempt, history file unchanged. -/
theorem C10_missing_credentials_abort (w : World)
    (h : w.env "GEMINI_API_KEY" = none ∨ w.env "FACEBOOK_ACCESS_TOKEN" = none
        ∨ w.env "FACEBOOK_PAGE_ID" = none) :
    run_full_job w = initState w.file0 false false
  ∧ (run_full_job w).fileLines = w.file0
  ∧ (run_full_job w).historyLoaded = false
  ∧ (run_full_job w).fetchCalled = false
  ∧ (run_full_job w).visitedIds = []
  ∧ (run_full_job w).publishedIds = []
  ∧ (run_full_job w).postAttempts = [] := by
  have hmain : run_full_job w = initState w.file0 false false := by
    simp only [run_full_job]
    rcases h with h | h | h <;> simp [h, strFalsy]
  rw [hmain]
  exact ⟨rfl, rfl, rfl, rfl, rfl, rfl, rfl⟩

/-- C10 witness: a concrete world with the Gemini key missing; the run
aborts before loading history or fetching. -/
theorem C10_missing_credentials_abort_witness :
    wNoCreds.env "GEMINI_API_KEY" = none
  ∧ run_full_job wNoCreds = initState wNoCreds.file0 false false :=
  ⟨by decide,
   (C10_missing_credentials_abort wNoCreds (Or.inl (by decide))).1⟩

end App
